import Mathlib

/-!
Shallow embedding of the HelenOS userspace asynchronous IPC runtime
(uspace/lib/c/generic/async.c) and proofs about its message routing,
timeout queue, outbound-message lifecycle and bulk-data helpers.

Machine integers of the C code are modelled as Nat (call ids, phone
hashes, payload words, sizes) and Int (error codes).  Heap allocation
is modelled by explicit Boolean success parameters, the absolute time
returned by gettimeofday by an explicit Nat parameter, and fibril
suspension points by explicit before/after states.
-/

namespace Async

/-- Modelled from the spec (section 6.3): error codes surfaced at the
boundary.  The header errno.h is not part of the sources; the concrete
values are representative, all that matters is that they are distinct
and that EOK is zero. -/
def EOK : Int := 0

/-- Modelled from the spec: out-of-memory error code. -/
def ENOMEM : Int := -2

/-- Modelled from the spec: hangup error code. -/
def EHANGUP : Int := -7

/-- Modelled from the spec: invalid-argument error code. -/
def EINVAL : Int := -8

/-- Modelled from the spec: timeout error code, distinct from EOK. -/
def ETIMEOUT : Int := -9

/-- Modelled from the spec (section 6.2): method number of the
IPC_M_CONNECT_ME request.  The header ipc/ipc.h is not part of the
sources; the concrete values are representative and distinct. -/
def IPC_M_CONNECT_ME : Nat := 1

/-- Modelled from the spec: method number of IPC_M_CONNECT_ME_TO. -/
def IPC_M_CONNECT_ME_TO : Nat := 2

/-- Modelled from the spec: method number of IPC_M_PHONE_HUNGUP. -/
def IPC_M_PHONE_HUNGUP : Nat := 3

/-- Modelled from the spec: method number of IPC_M_DATA_WRITE. -/
def IPC_M_DATA_WRITE : Nat := 6

/-- Modelled from the spec: ANSWERED flag bit carried by a call id. -/
def IPC_CALLID_ANSWERED : Nat := 1

/-- Modelled from the spec: NOTIFICATION flag bit carried by a call id. -/
def IPC_CALLID_NOTIFICATION : Nat := 2

/-- Call record (ipc_call_t): a method and up to five payload words,
together with the in-phone hash the kernel attaches to identify the
connection the call arrived on.  IPC_GET_METHOD reads the method
field, IPC_GET_ARGn the payload words. -/
structure IpcCall where
  method : Nat
  arg1 : Nat
  arg2 : Nat
  arg3 : Nat
  arg4 : Nat
  arg5 : Nat
  in_phone_hash : Nat
deriving DecidableEq

/-- Call record after memset(call, 0, sizeof(ipc_call_t)). -/
def zeroCall : IpcCall := ⟨0, 0, 0, 0, 0, 0, 0⟩

/-- Call record synthesized by async_get_call_timeout for a hung-up
connection: zeroed record with the method set to IPC_M_PHONE_HUNGUP. -/
def hungupCall : IpcCall := { zeroCall with method := IPC_M_PHONE_HUNGUP }

/-- Timeout event part of an awaiter (to_event): absolute expiration
time, list-membership flag and the flag recording that the timeout
fired.  Modelled from the source fields of awaiter_t (async_priv.h is
not under the sources; the fields are exactly the ones async.c uses). -/
structure TimeoutEvent where
  expires : Nat
  inlist : Bool
  occurred : Bool
deriving DecidableEq

/-- Awaiter (awaiter_t): the suspension record of a fibril, with the
fibril id to resume, the active flag and the timeout event. -/
structure Awaiter where
  fid : Nat
  active : Bool
  to_event : TimeoutEvent
deriving DecidableEq

/-- Modelled from the spec: tv_gteq of lib/c time code (not under the
sources) compares two absolute times; absolute deadlines are modelled
as single Nat microsecond counts. -/
def tv_gteq (a b : Nat) : Bool := b ≤ a

/-- Modelled from the spec: strict comparison of two absolute times. -/
def tv_gt (a b : Nat) : Bool := b < a

/-- Modelled from the spec: tv_add adds a microsecond count to an
absolute time. -/
def tv_add (a usecs : Nat) : Nat := a + usecs

/-- Expiration time of an awaiter. -/
def expiresOf (w : Awaiter) : Nat := w.to_event.expires

/-- Walk of async_insert_timeout: starting from the head of the
timeout list, advance past every entry whose expires is smaller than
the new awaiter's expires and link the new awaiter before the first
entry cur with tv_gteq(cur.expires, wd.expires); if no such entry
exists the awaiter is appended at the tail. -/
def async_insert_timeout_walk (wd : Awaiter) : List Awaiter → List Awaiter
  | [] => [wd]
  | cur :: rest =>
      if tv_gteq (expiresOf cur) (expiresOf wd) then wd :: cur :: rest
      else cur :: async_insert_timeout_walk wd rest

/-- Flag updates async_insert_timeout performs on the awaiter before
the walk: to_event.occurred := false and to_event.inlist := true. -/
def insertFlagged (wd : Awaiter) : Awaiter :=
  { wd with to_event := { wd.to_event with occurred := false, inlist := true } }

/-- async_insert_timeout: sort the awaiter into the timeout list. -/
def async_insert_timeout (wd : Awaiter) (l : List Awaiter) : List Awaiter :=
  async_insert_timeout_walk (insertFlagged wd) l

/-- Field updates handle_expired_timeouts performs on a fired awaiter:
removed from the list (inlist := false), occurred := true, and the
awaiter is activated when it was inactive (so active ends up true
either way). -/
def fireFlagged (w : Awaiter) : Awaiter :=
  { w with active := true,
           to_event := { w.to_event with inlist := false, occurred := true } }

/-- Walk of handle_expired_timeouts: from the head of the timeout
list, every awaiter whose expires is not in the future (not
tv_gt(expires, now)) is removed, marked fired, and its fibril made
ready when the awaiter was inactive; the walk stops at the first
awaiter with expires in the future.  Returns the remaining list, the
fired awaiters in list order, and the fibril ids made ready. -/
def handle_expired_timeouts_walk (now : Nat) :
    List Awaiter → List Awaiter × List Awaiter × List Nat
  | [] => ([], [], [])
  | w :: rest =>
      if tv_gt (expiresOf w) now then (w :: rest, [], [])
      else
        let tail := handle_expired_timeouts_walk now rest
        (tail.1, fireFlagged w :: tail.2.1,
         (if w.active then [] else [w.fid]) ++ tail.2.2)

/-- handle_expired_timeouts: fire all timeouts that expired at time
now (now stands for the value gettimeofday produced). -/
def handle_expired_timeouts (now : Nat) (l : List Awaiter) :
    List Awaiter × List Awaiter × List Nat :=
  handle_expired_timeouts_walk now l

/-- Decidable non-decreasing-expires check for the timeout list. -/
def isSortedTO : List Awaiter → Bool
  | [] => true
  | [_] => true
  | a :: b :: rest =>
      decide (expiresOf a ≤ expiresOf b) && isSortedTO (b :: rest)

/-- Decidable check that every awaiter of the list carries
to_event.inlist = true. -/
def allInlist (l : List Awaiter) : Bool := l.all (fun w => w.to_event.inlist)

/-- Connection (connection_t): one inbound logical session, keyed by
the incoming phone hash, with the FIFO message queue of (callid, call)
pairs, the opening call, the closing call id (zero while the
connection is open), and the embedded awaiter of its server fibril.
The cfibril function pointer is not part of the state modelled here;
its effect appears where connection_fibril is modelled. -/
structure Connection where
  wdata : Awaiter
  in_phone_hash : Nat
  msg_queue : List (Nat × IpcCall)
  callid : Nat
  call : IpcCall
  close_callid : Nat
deriving DecidableEq

/-- Modelled from the spec: hash_table_find of the generic hash table
(adt/hash_table.c is not under the sources) looks up the connection
whose in_phone_hash equals the key; the table invariant keeps at most
one entry per hash, and chaining resolves collisions, so the table is
modelled as a list searched front to back. -/
def hash_table_find (tbl : List Connection) (key : Nat) : Option Connection :=
  tbl.find? (fun c => c.in_phone_hash == key)

/-- Modelled from the spec: hash_table_remove deletes the entries
matching the key (at most one by the table invariant). -/
def hash_table_remove (tbl : List Connection) (key : Nat) : List Connection :=
  tbl.filter (fun c => c.in_phone_hash != key)

/-- Replacement of the connection found for the key by its updated
value, mirroring in-place mutation of the found table entry. -/
def conn_replace (key : Nat) (c' : Connection) : List Connection → List Connection
  | [] => []
  | c :: rest =>
      if c.in_phone_hash == key then c' :: rest else c :: conn_replace key c' rest

/-- Per-connection effect of route_call once the connection is found
and the message node is allocated: append (callid, call) to the
message queue, record callid as close_callid when the method is
IPC_M_PHONE_HUNGUP, and when the connection fibril is inactive clear
its timeout-list membership and activate it. -/
def conn_deliver (conn : Connection) (callid : Nat) (call : IpcCall) : Connection :=
  let c1 := { conn with msg_queue := conn.msg_queue ++ [(callid, call)] }
  let c2 := if call.method == IPC_M_PHONE_HUNGUP
            then { c1 with close_callid := callid } else c1
  if conn.wdata.active then c2
  else
    { c2 with wdata := { c2.wdata with
        active := true,
        to_event := { c2.wdata.to_event with inlist := false } } }

/-- Fibril ids route_call makes ready: the connection fibril, exactly
when it was inactive. -/
def conn_readied (conn : Connection) : List Nat :=
  if conn.wdata.active then [] else [conn.wdata.fid]

/-- Result of route_call: whether the call was routed, the connection
table afterwards, and the fibril ids made ready. -/
structure RouteResult where
  routed : Bool
  tbl : List Connection
  readied : List Nat
deriving DecidableEq

/-- route_call: look up the in-phone hash of the call in the
connection hash table; when absent, or when the allocation of the
message node fails (allocOk = false), return unrouted with the table
unchanged; otherwise deliver the message to the connection.  The
removal of the awaiter from the global timeout list on activation is
reflected in the inlist flag; the global list itself is updated by the
surrounding manager state, which no claim here depends on. -/
def route_call (tbl : List Connection) (callid : Nat) (call : IpcCall)
    (allocOk : Bool) : RouteResult :=
  match hash_table_find tbl call.in_phone_hash with
  | none => ⟨false, tbl, []⟩
  | some conn =>
      if allocOk then
        ⟨true, conn_replace call.in_phone_hash (conn_deliver conn callid call) tbl,
         conn_readied conn⟩
      else ⟨false, tbl, []⟩

/-- Result of one non-suspending pass of async_get_call_timeout:
either a (callid, call) pair is returned, or the fibril would suspend
(empty queue, no pending close), which the surrounding manager resolves
by route_call or handle_expired_timeouts waking it. -/
inductive GetCallResult where
  | got (callid : Nat) (call : IpcCall)
  | wouldBlock
deriving DecidableEq

/-- Timeout bookkeeping async_get_call_timeout performs before
examining the queue: a non-zero usecs sets to_event.expires to
now + usecs, a zero usecs clears the inlist flag. -/
def conn_tick (conn : Connection) (usecs now : Nat) : Connection :=
  if usecs ≠ 0 then
    { conn with wdata := { conn.wdata with
        to_event := { conn.wdata.to_event with expires := tv_add now usecs } } }
  else
    { conn with wdata := { conn.wdata with
        to_event := { conn.wdata.to_event with inlist := false } } }

/-- Non-suspending pass of async_get_call_timeout on the fibril-local
connection: after the conn_tick bookkeeping, an empty message queue
with a recorded close_callid synthesizes a zeroed IPC_M_PHONE_HUNGUP
call record and returns close_callid; an empty queue without one
suspends; otherwise the head message is unlinked, its (callid, call)
returned, and the node freed. -/
def async_get_call_step (conn : Connection) (usecs : Nat) (now : Nat) :
    GetCallResult × Connection :=
  let conn' := conn_tick conn usecs now
  match conn'.msg_queue with
  | [] =>
      if conn'.close_callid ≠ 0 then
        (GetCallResult.got conn'.close_callid hungupCall, conn')
      else
        (GetCallResult.wouldBlock, conn')
  | m :: rest =>
      (GetCallResult.got m.1 m.2, { conn' with msg_queue := rest })

/-- Repeated dequeue: n successive async_get_call_timeout passes of
the server fibril, collecting the returned (callid, call) pairs and
stopping if a pass would suspend. -/
def drainCalls (usecs now : Nat) : Connection → Nat → List (Nat × IpcCall)
  | _, 0 => []
  | conn, Nat.succ n =>
      match async_get_call_step conn usecs now with
      | (GetCallResult.got c k, conn') => (c, k) :: drainCalls usecs now conn' n
      | (GetCallResult.wouldBlock, _) => []

/-- Successive route_call invocations for a list of incoming
(callid, call) pairs, all with successful node allocation, collecting
the route_call results in order. -/
def routeAll (tbl : List Connection) : List (Nat × IpcCall) → List Connection × List Bool
  | [] => (tbl, [])
  | m :: rest =>
      let r := route_call tbl m.1 m.2 true
      let t := routeAll r.tbl rest
      (t.1, r.routed :: t.2)

/-- Hangup drain loop of connection_fibril: unlink the head message,
answer its callid with EHANGUP, free the node, until the queue is
empty; answers are collected as (callid, error code) pairs in order. -/
def drain_hangup : List (Nat × IpcCall) → List (Nat × Int)
  | [] => []
  | m :: rest => (m.1, EHANGUP) :: drain_hangup rest

/-- Cleanup part of connection_fibril, after the user connection
handler cfibril returned: remove the connection from the connection
hash table, answer every remaining queued message with EHANGUP in
queue order, and answer close_callid with EOK when it is set.  Returns
the table afterwards and the ipc_answer_0 calls issued in order. -/
def connection_fibril_exit (tbl : List Connection) (conn : Connection) :
    List Connection × List (Nat × Int) :=
  (hash_table_remove tbl conn.in_phone_hash,
   drain_hangup conn.msg_queue ++
     (if conn.close_callid ≠ 0 then [(conn.close_callid, EOK)] else []))

/-- Fresh connection built by async_new_connection: message queue
initialized empty, close_callid zero, opening call stored, awaiter
active with the newly created fibril; the to_event of the freshly
allocated awaiter is whatever garbage the allocator returned, which
async_new_connection does not initialize. -/
def new_connection_record (in_phone_hash callid : Nat) (call : IpcCall)
    (newFid : Nat) (garbageEv : TimeoutEvent) : Connection :=
  { wdata := { fid := newFid, active := true, to_event := garbageEv },
    in_phone_hash := in_phone_hash, msg_queue := [], callid := callid,
    call := call, close_callid := 0 }

/-- async_new_connection: allocate the connection (connAllocOk models
malloc) and create its fibril (fibrilOk models fibril_create); on
either failure answer the opening call with ENOMEM when callid is
non-zero and leave the table unchanged; on success insert the
connection into the hash table and make its fibril ready. -/
def async_new_connection (tbl : List Connection) (in_phone_hash callid : Nat)
    (call : IpcCall) (connAllocOk fibrilOk : Bool) (newFid : Nat)
    (garbageEv : TimeoutEvent) : List Connection × List (Nat × Int) :=
  if connAllocOk then
    if fibrilOk then
      (tbl ++ [new_connection_record in_phone_hash callid call newFid garbageEv], [])
    else (tbl, if callid ≠ 0 then [(callid, ENOMEM)] else [])
  else (tbl, if callid ≠ 0 then [(callid, ENOMEM)] else [])

/-- handle_call: a call id carrying the NOTIFICATION bit spawns a
notification fibril (no answer is sent by handle_call itself); a
IPC_M_CONNECT_ME or IPC_M_CONNECT_ME_TO method opens a new connection
keyed by payload word five; otherwise the call is routed through the
connection hash table, and when route_call reports it unrouted the
call is answered with EHANGUP.  Returns the connection table afterwards
and the ipc_answer_0 calls issued.  The allocOk flag models the
message-node allocation inside route_call; connAllocOk, fibrilOk,
newFid and garbageEv feed async_new_connection. -/
def handle_call (tbl : List Connection) (callid : Nat) (call : IpcCall)
    (allocOk connAllocOk fibrilOk : Bool) (newFid : Nat)
    (garbageEv : TimeoutEvent) : List Connection × List (Nat × Int) :=
  if callid &&& IPC_CALLID_NOTIFICATION ≠ 0 then
    (tbl, [])
  else if call.method == IPC_M_CONNECT_ME || call.method == IPC_M_CONNECT_ME_TO then
    async_new_connection tbl call.arg5 callid call connAllocOk fibrilOk newFid garbageEv
  else
    let r := route_call tbl callid call allocOk
    if r.routed then (r.tbl, []) else (r.tbl, [(callid, EHANGUP)])

/-- Outbound message record (amsg_t): the awaiter of the fibril that
waits for the reply, the done flag, whether dataptr is non-null
together with the reply data last stored through it, and the status
word of the answer. -/
structure Amsg where
  wdata : Awaiter
  done : Bool
  dataptrSet : Bool
  dataptrVal : Option IpcCall
  retval : Int
deriving DecidableEq

/-- Initialization async_send_fast performs on the freshly allocated
amsg (whose prior contents, malloc garbage, are the argument): done is
cleared, dataptr recorded, to_event.inlist cleared and the awaiter
marked active; retval and the remaining awaiter fields keep their
garbage values until the reply callback or a wait fills them. -/
def async_send_fast_msg (dataptrSet : Bool) (garbage : Amsg) : Amsg :=
  { garbage with
      done := false,
      dataptrSet := dataptrSet,
      wdata := { garbage.wdata with
        active := true,
        to_event := { garbage.wdata.to_event with inlist := false } } }

/-- Initialization async_send_slow performs on the freshly allocated
amsg: identical to async_send_fast apart from the extra payload word
handed to the kernel send. -/
def async_send_slow_msg (dataptrSet : Bool) (garbage : Amsg) : Amsg :=
  { garbage with
      done := false,
      dataptrSet := dataptrSet,
      wdata := { garbage.wdata with
        active := true,
        to_event := { garbage.wdata.to_event with inlist := false } } }

/-- reply_received: store the status into retval, copy the answer data
through dataptr when both are present, unlink the awaiter from the
timeout list when inlist (the flag itself is left as the source leaves
it), set done, and when the awaiter is inactive activate it and make
its fibril ready.  Returns the updated amsg and the fibril ids made
ready. -/
def reply_received (m : Amsg) (retval : Int) (data : Option IpcCall) :
    Amsg × List Nat :=
  let m1 := { m with retval := retval }
  let m2 := if m1.dataptrSet && data.isSome
            then { m1 with dataptrVal := data } else m1
  let m3 := { m2 with done := true }
  if m3.wdata.active then (m3, [])
  else ({ m3 with wdata := { m3.wdata with active := true } }, [m3.wdata.fid])

/-- Events that touch a given amsg after it was sent: the reply
callback (fired by the kernel facade exactly once per sent message),
the field updates async_wait_for performs before suspending, the field
updates async_wait_timeout together with async_insert_timeout performs
before suspending, and the firing of its timeout by
handle_expired_timeouts. -/
inductive AmsgEvent where
  | reply (rv : Int) (data : Option IpcCall)
  | waitPark (fid : Nat)
  | waitTimeoutPark (fid now usecs : Nat)
  | timerFired
deriving DecidableEq

/-- Whether an event is the reply callback. -/
def AmsgEvent.isReply : AmsgEvent → Bool
  | .reply _ _ => true
  | _ => false

/-- Effect of one event on the amsg record.  waitPark is the
suspension setup of async_wait_for (fid stored, active and inlist
cleared); waitTimeoutPark is the suspension setup of
async_wait_timeout (expires set to now + usecs, fid stored, active
cleared, then async_insert_timeout linking the awaiter into the
timeout list); timerFired is the per-awaiter effect of
handle_expired_timeouts. -/
def amsgStep (m : Amsg) : AmsgEvent → Amsg
  | .reply rv d => (reply_received m rv d).1
  | .waitPark fid =>
      { m with wdata := { m.wdata with
          fid := fid,
          active := false,
          to_event := { m.wdata.to_event with inlist := false } } }
  | .waitTimeoutPark fid now usecs =>
      { m with wdata := { m.wdata with
          fid := fid,
          active := false,
          to_event := { m.wdata.to_event with
            expires := tv_add now usecs, inlist := true, occurred := false } } }
  | .timerFired =>
      { m with wdata := { m.wdata with
          active := true,
          to_event := { m.wdata.to_event with inlist := false, occurred := true } } }

/-- Folding a sequence of events over an amsg. -/
def applyEvents (m : Amsg) (t : List AmsgEvent) : Amsg := t.foldl amsgStep m

/-- Outcome of async_wait_for: the value stored through the retval
pointer (none when the pointer is null), whether the amsg was freed,
and whether the fibril suspended. -/
structure WaitForOutcome where
  stored : Option Int
  freed : Bool
  parked : Bool
deriving DecidableEq

/-- async_wait_for: under the futex, when done is already set skip to
the end; otherwise record the fibril id, clear active and inlist and
switch to the manager, resuming once the reply callback woke the
fibril.  At the end the retval of the amsg (mEntry when done was
already set, the state at resume otherwise) is stored through the
pointer when non-null, and the amsg is freed.  mResume is the amsg
state when the fibril resumes. -/
def async_wait_for (mEntry mResume : Amsg) (retvalPtr : Bool) : WaitForOutcome :=
  if mEntry.done then
    ⟨if retvalPtr then some mEntry.retval else none, true, false⟩
  else
    ⟨if retvalPtr then some mResume.retval else none, true, true⟩

/-- Observable actions of one async_wait_timeout invocation, in
program order: futex acquisition and release, a read of the done flag,
the timeout-list insertion, the switch to the manager, the store
through the retval pointer, and free of the amsg. -/
inductive WaitAction where
  | futexDown
  | futexUp
  | readDone
  | insertTO
  | switchTM
  | writeRetval (v : Int)
  | freeMsg
deriving DecidableEq

/-- async_wait_timeout: a negative timeout returns ETIMEOUT before
anything else happens.  Otherwise, under the futex, a done flag that
is already set leads to the final store-and-free; otherwise expires is
set to now + timeout, the fibril id recorded, active cleared, the
awaiter sorted into the timeout list and the fibril switches to the
manager.  On resume, a done flag still clear means the wakeup came
from the timeout: ETIMEOUT is returned with no store and no free; a
set done flag leads to the final store-and-free and EOK.  mResume is
the amsg state when the fibril resumes; the returned trace lists the
actions performed. -/
def async_wait_timeout (mEntry : Amsg) (retvalPtr : Bool) (timeout : Int)
    (now : Nat) (mResume : Amsg) : Int × List WaitAction :=
  if timeout < 0 then (ETIMEOUT, [])
  else if mEntry.done then
    (EOK, [WaitAction.futexDown, WaitAction.readDone, WaitAction.futexUp] ++
      (if retvalPtr then [WaitAction.writeRetval mEntry.retval] else []) ++
      [WaitAction.freeMsg])
  else if mResume.done then
    (EOK, [WaitAction.futexDown, WaitAction.readDone, WaitAction.insertTO,
           WaitAction.switchTM, WaitAction.readDone] ++
      (if retvalPtr then [WaitAction.writeRetval mResume.retval] else []) ++
      [WaitAction.freeMsg])
  else
    (ETIMEOUT, [WaitAction.futexDown, WaitAction.readDone, WaitAction.insertTO,
                WaitAction.switchTM, WaitAction.readDone])

/-- Outcome of async_usleep: the timeout list afterwards, whether the
fibril suspended, and whether an awaiter was inserted into the list.
The C function returns void, so no status reaches the caller on any
path. -/
structure UsleepOutcome where
  tl : List Awaiter
  suspended : Bool
  inserted : Bool
deriving DecidableEq

/-- async_usleep: allocate an amsg (allocOk models malloc; garbage is
the prior contents of its awaiter); on failure return at once.
Otherwise record the fibril id, clear active, set expires to
now + timeout, sort the awaiter into the timeout list under the futex
and switch to the manager; on resume the amsg is freed. -/
def async_usleep (allocOk : Bool) (garbage : Awaiter) (fid now timeout : Nat)
    (tl : List Awaiter) : UsleepOutcome :=
  if allocOk then
    let wd := { garbage with
        fid := fid,
        active := false,
        to_event := { garbage.to_event with expires := tv_add now timeout } }
    ⟨async_insert_timeout wd tl, true, true⟩
  else ⟨tl, false, false⟩

/-- Outcome of async_data_write_accept: the returned status, the
ipc_answer_0 calls issued, the number of bytes malloc obtained for the
buffer, the final buffer contents handed back through the data
pointer, and the size stored through received. -/
structure AcceptResult where
  rc : Int
  answers : List (Nat × Int)
  allocLen : Option Nat
  data : Option (List Nat)
  received : Option Nat
deriving DecidableEq

/-- async_data_write_accept: receive the IPC_M_DATA_WRITE handshake
(recvOk false models async_data_write_receive failing, callid the
received call, size the negotiated size); sizes below min_size, above
a non-zero max_size, or not divisible by a non-zero granularity are
answered and returned EINVAL; then a buffer of size bytes (size + 1
when nullterm) is allocated (allocOk models malloc, ENOMEM on
failure); async_data_write_finalize copies the payload into the buffer
and its status is finalizeRc, a failure frees the buffer and returns
that status without an answer (finalize already answered); on success
a nullterm buffer gets a zero byte written at index size, the buffer
is handed back, received is set to size and EOK returned. -/
def async_data_write_accept (callid : Nat) (recvOk : Bool) (size : Nat)
    (nullterm : Bool) (min_size max_size granularity : Nat) (allocOk : Bool)
    (payload : List Nat) (finalizeRc : Int) : AcceptResult :=
  if !recvOk then ⟨EINVAL, [(callid, EINVAL)], none, none, none⟩
  else if size < min_size then ⟨EINVAL, [(callid, EINVAL)], none, none, none⟩
  else if 0 < max_size ∧ max_size < size then ⟨EINVAL, [(callid, EINVAL)], none, none, none⟩
  else if 0 < granularity ∧ size % granularity ≠ 0 then
    ⟨EINVAL, [(callid, EINVAL)], none, none, none⟩
  else
    let len := if nullterm then size + 1 else size
    if !allocOk then ⟨ENOMEM, [(callid, ENOMEM)], none, none, none⟩
    else if finalizeRc ≠ EOK then ⟨finalizeRc, [], some len, none, none⟩
    else
      let buf := if nullterm then payload ++ [0] else payload
      ⟨EOK, [], some len, some buf, some size⟩

/-! Lemmas about the timeout queue. -/

/-- Ordering of awaiters by expiration time. -/
def leExp (a b : Awaiter) : Prop := expiresOf a ≤ expiresOf b

instance : DecidableRel leExp := fun a b => Nat.decLe (expiresOf a) (expiresOf b)

instance : IsTotal Awaiter leExp := ⟨fun a b => Nat.le_total (expiresOf a) (expiresOf b)⟩

instance : IsTrans Awaiter leExp := ⟨fun _ _ _ => Nat.le_trans⟩

theorem expiresOf_insertFlagged (wd : Awaiter) :
    expiresOf (insertFlagged wd) = expiresOf wd := rfl

theorem inlist_insertFlagged (wd : Awaiter) :
    (insertFlagged wd).to_event.inlist = true := rfl

theorem insert_walk_eq_orderedInsert (wd : Awaiter) (l : List Awaiter) :
    async_insert_timeout_walk wd l = List.orderedInsert leExp wd l := by
  induction l with
  | nil => rfl
  | cons cur rest ih =>
      by_cases h : expiresOf wd ≤ expiresOf cur
      · simp [async_insert_timeout_walk, List.orderedInsert, tv_gteq, leExp, h]
      · simp [async_insert_timeout_walk, List.orderedInsert, tv_gteq, leExp, h, ih]

theorem insert_walk_shape (wd : Awaiter) (l : List Awaiter) :
    async_insert_timeout_walk wd l =
      l.takeWhile (fun c => !(tv_gteq (expiresOf c) (expiresOf wd))) ++
        wd :: l.dropWhile (fun c => !(tv_gteq (expiresOf c) (expiresOf wd))) := by
  induction l with
  | nil => rfl
  | cons cur rest ih =>
      by_cases h : expiresOf wd ≤ expiresOf cur
      · simp [async_insert_timeout_walk, List.takeWhile_cons, List.dropWhile_cons,
          tv_gteq, h]
      · simp [async_insert_timeout_walk, List.takeWhile_cons, List.dropWhile_cons,
          tv_gteq, h, ih]

theorem insert_walk_sorted (wd : Awaiter) (l : List Awaiter)
    (h : List.Sorted leExp l) :
    List.Sorted leExp (async_insert_timeout_walk wd l) := by
  rw [insert_walk_eq_orderedInsert]
  exact List.Sorted.orderedInsert wd l h

theorem insert_walk_mem (wd x : Awaiter) (l : List Awaiter)
    (hx : x ∈ async_insert_timeout_walk wd l) : x = wd ∨ x ∈ l := by
  induction l with
  | nil =>
      simp [async_insert_timeout_walk] at hx
      exact Or.inl hx
  | cons cur rest ih =>
      by_cases h : expiresOf wd ≤ expiresOf cur
      · simp [async_insert_timeout_walk, tv_gteq, h] at hx
        rcases hx with h1 | h2 | h3
        · exact Or.inl h1
        · exact Or.inr (by simp [h2])
        · exact Or.inr (List.mem_cons_of_mem _ h3)
      · simp [async_insert_timeout_walk, tv_gteq, h] at hx
        rcases hx with h1 | h2
        · exact Or.inr (by simp [h1])
        · rcases ih h2 with h3 | h4
          · exact Or.inl h3
          · exact Or.inr (List.mem_cons_of_mem _ h4)

theorem insert_walk_allInlist (wd : Awaiter) (l : List Awaiter)
    (hl : allInlist l = true) (hw : wd.to_event.inlist = true) :
    allInlist (async_insert_timeout_walk wd l) = true := by
  simp only [allInlist, List.all_eq_true] at *
  intro x hx
  rcases insert_walk_mem wd x l hx with h | h
  · subst h; exact hw
  · exact hl x h

theorem sweep_remaining_eq (now : Nat) (l : List Awaiter) :
    (handle_expired_timeouts_walk now l).1 =
      l.dropWhile (fun w => !(tv_gt (expiresOf w) now)) := by
  induction l with
  | nil => rfl
  | cons w rest ih =>
      by_cases h : now < expiresOf w
      · simp [handle_expired_timeouts_walk, List.dropWhile_cons, tv_gt, h]
      · simp [handle_expired_timeouts_walk, List.dropWhile_cons, tv_gt, h, ih]

theorem sweep_fired_eq (now : Nat) (l : List Awaiter) :
    (handle_expired_timeouts_walk now l).2.1 =
      (l.takeWhile (fun w => !(tv_gt (expiresOf w) now))).map fireFlagged := by
  induction l with
  | nil => rfl
  | cons w rest ih =>
      by_cases h : now < expiresOf w
      · simp [handle_expired_timeouts_walk, List.takeWhile_cons, tv_gt, h]
      · simp [handle_expired_timeouts_walk, List.takeWhile_cons, tv_gt, h, ih]

theorem sweep_remaining_sorted (now : Nat) (l : List Awaiter)
    (h : List.Sorted leExp l) :
    List.Sorted leExp (handle_expired_timeouts_walk now l).1 := by
  rw [sweep_remaining_eq]
  exact List.Pairwise.sublist (List.dropWhile_sublist _) h

theorem sweep_remaining_allInlist (now : Nat) (l : List Awaiter)
    (h : allInlist l = true) :
    allInlist (handle_expired_timeouts_walk now l).1 = true := by
  rw [sweep_remaining_eq]
  simp only [allInlist, List.all_eq_true] at *
  intro x hx
  exact h x ((List.dropWhile_sublist _).mem hx)

theorem sweep_fired_flags (now : Nat) (l : List Awaiter) :
    ((handle_expired_timeouts_walk now l).2.1).all
      (fun w => !w.to_event.inlist && w.to_event.occurred &&
        decide (expiresOf w ≤ now)) = true := by
  rw [sweep_fired_eq]
  simp only [List.all_eq_true, List.mem_map]
  rintro w ⟨x, hx, rfl⟩
  have hp := List.mem_takeWhile_imp hx
  simp only [tv_gt, Bool.not_eq_true', decide_eq_false_iff_not, Nat.not_lt] at hp
  simp [fireFlagged, expiresOf] at hp ⊢
  exact hp

/-- C3 (counterexample to the claim as stated): two awaiters with
equal expires (both 5) do not keep FIFO (insertion) order.  Inserting
the awaiter with fid 1 and then the awaiter with fid 2 into an empty
timeout list leaves the second-inserted awaiter at the head, in front
of the first-inserted one: the walk stops at the first entry whose
expires is greater than or equal to the new expires and links the new
awaiter before it, so equal-expires ties are reversed, not FIFO. -/
theorem c3_ties_not_fifo_counterexample :
    ((async_insert_timeout ⟨2, false, ⟨5, false, false⟩⟩
        (async_insert_timeout ⟨1, false, ⟨5, false, false⟩⟩ [])).map Awaiter.fid
      = [2, 1]) ∧ ([2, 1] : List Nat) ≠ [1, 2] := by
  exact ⟨by decide, by decide⟩

/-- C3 (amended): async_insert_timeout walks from the head and links
the new awaiter immediately before the first entry whose expires is
greater than or equal to the new awaiter's expires (after setting its
occurred flag false and its inlist flag true), so the expires values
stay non-decreasing from head to tail; every awaiter preceding the new
one has strictly smaller expires, hence awaiters with equal expires end
up in reverse insertion order (the newest first), not FIFO; and across
these two timeout-queue operations the inlist flag matches membership:
insertion leaves every linked awaiter with inlist true, and
handle_expired_timeouts removes exactly the expired prefix, leaving
the remaining linked awaiters sorted with inlist true, with every
removed awaiter carrying inlist false, occurred true, and an expires
that is at most now. -/
theorem c3_timeout_queue_invariants (wd : Awaiter) (l : List Awaiter) (now : Nat)
    (hs : List.Sorted leExp l) (hf : allInlist l = true) :
    (async_insert_timeout wd l =
        l.takeWhile (fun c => !(tv_gteq (expiresOf c) (expiresOf wd))) ++
          insertFlagged wd ::
            l.dropWhile (fun c => !(tv_gteq (expiresOf c) (expiresOf wd))))
    ∧ List.Sorted leExp (async_insert_timeout wd l)
    ∧ allInlist (async_insert_timeout wd l) = true
    ∧ (l.takeWhile (fun c => !(tv_gteq (expiresOf c) (expiresOf wd)))).all
        (fun c => decide (expiresOf c < expiresOf wd)) = true
    ∧ (handle_expired_timeouts now l).1 =
        l.dropWhile (fun w => !(tv_gt (expiresOf w) now))
    ∧ (handle_expired_timeouts now l).2.1 =
        (l.takeWhile (fun w => !(tv_gt (expiresOf w) now))).map fireFlagged
    ∧ List.Sorted leExp (handle_expired_timeouts now l).1
    ∧ allInlist (handle_expired_timeouts now l).1 = true
    ∧ ((handle_expired_timeouts now l).2.1).all
        (fun w => !w.to_event.inlist && w.to_event.occurred &&
          decide (expiresOf w ≤ now)) = true := by
  refine ⟨?_, ?_, ?_, ?_, ?_, ?_, ?_, ?_, ?_⟩
  · rw [async_insert_timeout, insert_walk_shape, expiresOf_insertFlagged]
  · exact insert_walk_sorted _ _ hs
  · exact insert_walk_allInlist _ _ hf (inlist_insertFlagged wd)
  · simp only [List.all_eq_true]
    intro c hc
    have hp := List.mem_takeWhile_imp hc
    simp only [tv_gteq, Bool.not_eq_true', decide_eq_false_iff_not, Nat.not_le] at hp
    simpa using hp
  · exact sweep_remaining_eq now l
  · exact sweep_fired_eq now l
  · exact sweep_remaining_sorted now l hs
  · exact sweep_remaining_allInlist now l hf
  · exact sweep_fired_flags now l

/-- C3 witness: the amended theorem applied to the awaiter with
expires 6 and the singleton sorted list containing a linked awaiter
with expires 5, at time 5. -/
theorem c3_timeout_queue_invariants_witness :
    (List.Sorted leExp [⟨1, false, ⟨5, true, false⟩⟩]
      ∧ allInlist [⟨1, false, ⟨5, true, false⟩⟩] = true)
    ∧ ((async_insert_timeout ⟨4, false, ⟨6, false, false⟩⟩
          [⟨1, false, ⟨5, true, false⟩⟩] =
        List.takeWhile
            (fun c => !(tv_gteq (expiresOf c) (expiresOf ⟨4, false, ⟨6, false, false⟩⟩)))
            [⟨1, false, ⟨5, true, false⟩⟩] ++
          insertFlagged ⟨4, false, ⟨6, false, false⟩⟩ ::
            List.dropWhile
              (fun c => !(tv_gteq (expiresOf c) (expiresOf ⟨4, false, ⟨6, false, false⟩⟩)))
              [⟨1, false, ⟨5, true, false⟩⟩])
      ∧ List.Sorted leExp
          (async_insert_timeout ⟨4, false, ⟨6, false, false⟩⟩
            [⟨1, false, ⟨5, true, false⟩⟩])
      ∧ allInlist
          (async_insert_timeout ⟨4, false, ⟨6, false, false⟩⟩
            [⟨1, false, ⟨5, true, false⟩⟩]) = true
      ∧ (List.takeWhile
            (fun c => !(tv_gteq (expiresOf c) (expiresOf ⟨4, false, ⟨6, false, false⟩⟩)))
            [⟨1, false, ⟨5, true, false⟩⟩]).all
          (fun c => decide (expiresOf c < expiresOf ⟨4, false, ⟨6, false, false⟩⟩)) = true
      ∧ (handle_expired_timeouts 5 [⟨1, false, ⟨5, true, false⟩⟩]).1 =
          List.dropWhile (fun w => !(tv_gt (expiresOf w) 5))
            [⟨1, false, ⟨5, true, false⟩⟩]
      ∧ (handle_expired_timeouts 5 [⟨1, false, ⟨5, true, false⟩⟩]).2.1 =
          (List.takeWhile (fun w => !(tv_gt (expiresOf w) 5))
            [⟨1, false, ⟨5, true, false⟩⟩]).map fireFlagged
      ∧ List.Sorted leExp (handle_expired_timeouts 5 [⟨1, false, ⟨5, true, false⟩⟩]).1
      ∧ allInlist (handle_expired_timeouts 5 [⟨1, false, ⟨5, true, false⟩⟩]).1 = true
      ∧ ((handle_expired_timeouts 5 [⟨1, false, ⟨5, true, false⟩⟩]).2.1).all
          (fun w => !w.to_event.inlist && w.to_event.occurred &&
            decide (expiresOf w ≤ 5)) = true) :=
  ⟨⟨by decide, by decide⟩,
   c3_timeout_queue_invariants ⟨4, false, ⟨6, false, false⟩⟩
     [⟨1, false, ⟨5, true, false⟩⟩] 5 (by decide) (by decide)⟩

/-! Lemmas about routing and per-connection FIFO delivery. -/

theorem conn_deliver_msg_queue (conn : Connection) (callid : Nat) (call : IpcCall) :
    (conn_deliver conn callid call).msg_queue = conn.msg_queue ++ [(callid, call)] := by
  simp only [conn_deliver]
  split_ifs <;> rfl

theorem conn_deliver_in_phone_hash (conn : Connection) (callid : Nat) (call : IpcCall) :
    (conn_deliver conn callid call).in_phone_hash = conn.in_phone_hash := by
  simp only [conn_deliver]
  split_ifs <;> rfl

theorem route_call_single (conn : Connection) (callid : Nat) (call : IpcCall)
    (h : call.in_phone_hash = conn.in_phone_hash) :
    route_call [conn] callid call true =
      ⟨true, [conn_deliver conn callid call], conn_readied conn⟩ := by
  simp [route_call, hash_table_find, conn_replace, List.find?, h]

theorem routeAll_single (ms : List (Nat × IpcCall)) : ∀ (conn : Connection),
    (∀ m ∈ ms, (m.2).in_phone_hash = conn.in_phone_hash) →
    ∃ conn', routeAll [conn] ms = ([conn'], List.replicate ms.length true)
      ∧ conn'.msg_queue = conn.msg_queue ++ ms
      ∧ conn'.in_phone_hash = conn.in_phone_hash := by
  induction ms with
  | nil =>
      intro conn _
      exact ⟨conn, rfl, by simp, rfl⟩
  | cons m rest ih =>
      intro conn h
      have hm : (m.2).in_phone_hash = conn.in_phone_hash :=
        h m (List.mem_cons_self m rest)
      have hrest : ∀ x ∈ rest,
          (x.2).in_phone_hash = (conn_deliver conn m.1 m.2).in_phone_hash := by
        intro x hx
        rw [conn_deliver_in_phone_hash]
        exact h x (List.mem_cons_of_mem m hx)
      obtain ⟨conn', h1, h2, h3⟩ := ih (conn_deliver conn m.1 m.2) hrest
      refine ⟨conn', ?_, ?_, ?_⟩
      · simp [routeAll, route_call_single conn m.1 m.2 hm, h1, List.replicate]
      · rw [h2, conn_deliver_msg_queue]
        simp
      · rw [h3, conn_deliver_in_phone_hash]

theorem conn_tick_msg_queue (conn : Connection) (usecs now : Nat) :
    (conn_tick conn usecs now).msg_queue = conn.msg_queue := by
  unfold conn_tick
  split <;> rfl

theorem conn_tick_close_callid (conn : Connection) (usecs now : Nat) :
    (conn_tick conn usecs now).close_callid = conn.close_callid := by
  unfold conn_tick
  split <;> rfl

theorem step_dequeue (conn : Connection) (usecs now : Nat) (c : Nat) (k : IpcCall)
    (rest : List (Nat × IpcCall)) (h : conn.msg_queue = (c, k) :: rest) :
    async_get_call_step conn usecs now =
      (GetCallResult.got c k, { conn_tick conn usecs now with msg_queue := rest }) := by
  have h' : (conn_tick conn usecs now).msg_queue = (c, k) :: rest := by
    rw [conn_tick_msg_queue, h]
  simp only [async_get_call_step]
  rw [h']

theorem drainCalls_succ (usecs now : Nat) (conn : Connection) (n : Nat)
    (c : Nat) (k : IpcCall) (conn2 : Connection)
    (h : async_get_call_step conn usecs now = (GetCallResult.got c k, conn2)) :
    drainCalls usecs now conn (n + 1) = (c, k) :: drainCalls usecs now conn2 n := by
  conv_lhs => unfold drainCalls
  rw [h]

theorem drain_msg_queue (usecs now : Nat) : ∀ (q : List (Nat × IpcCall)),
    ∀ (conn : Connection), conn.msg_queue = q →
      drainCalls usecs now conn q.length = q := by
  intro q
  induction q with
  | nil => intro conn _; rfl
  | cons m rest ih =>
      intro conn h
      obtain ⟨c, k⟩ := m
      rw [List.length_cons,
          drainCalls_succ usecs now conn rest.length c k _
            (step_dequeue conn usecs now c k rest h),
          ih _ rfl]

/-- C1: FIFO per connection.  Starting from a connection with an empty
inbox, delivering the incoming (cid, call) pairs ms one by one through
route_call (each of them carrying the connection's in-phone hash, each
message-node allocation succeeding) reports every call as routed,
leaves the connection's msg_queue holding exactly ms in arrival order,
and the server fibril's successive async_get_call_timeout passes then
return exactly the pairs of ms, in the same order. -/
theorem c1_fifo_per_connection (conn : Connection) (ms : List (Nat × IpcCall))
    (usecs now : Nat)
    (h0 : conn.msg_queue = [])
    (h1 : ms.all (fun m => (m.2).in_phone_hash == conn.in_phone_hash) = true) :
    (routeAll [conn] ms).2 = List.replicate ms.length true
    ∧ (routeAll [conn] ms).1.map Connection.msg_queue = [ms]
    ∧ drainCalls usecs now ((routeAll [conn] ms).1.headD conn) ms.length = ms := by
  have h1' : ∀ m ∈ ms, (m.2).in_phone_hash = conn.in_phone_hash := by
    intro m hm
    have := List.all_eq_true.1 h1 m hm
    simpa using this
  obtain ⟨conn', hEq, hQ, _⟩ := routeAll_single ms conn h1'
  rw [hEq]
  refine ⟨rfl, ?_, ?_⟩
  · simp [hQ, h0]
  · simp only [List.headD]
    exact drain_msg_queue usecs now ms conn' (by rw [hQ, h0]; simp)

/-- C1 witness: two calls with methods 16 and 17 routed to a fresh
connection with phone hash 77 come back from the server fibril's
get-call passes as exactly those two calls, in order. -/
theorem c1_fifo_per_connection_witness :
    (Connection.msg_queue
        { wdata := ⟨9, false, ⟨0, false, false⟩⟩, in_phone_hash := 77,
          msg_queue := [], callid := 100, call := zeroCall, close_callid := 0 } = []
      ∧ ([(500, { zeroCall with method := 16, in_phone_hash := 77 }),
          (501, { zeroCall with method := 17, in_phone_hash := 77 })] :
            List (Nat × IpcCall)).all
          (fun m => (m.2).in_phone_hash == 77) = true)
    ∧ ((routeAll
          [{ wdata := ⟨9, false, ⟨0, false, false⟩⟩, in_phone_hash := 77,
             msg_queue := [], callid := 100, call := zeroCall, close_callid := 0 }]
          [(500, { zeroCall with method := 16, in_phone_hash := 77 }),
           (501, { zeroCall with method := 17, in_phone_hash := 77 })]).2 =
        List.replicate 2 true
      ∧ (routeAll
          [{ wdata := ⟨9, false, ⟨0, false, false⟩⟩, in_phone_hash := 77,
             msg_queue := [], callid := 100, call := zeroCall, close_callid := 0 }]
          [(500, { zeroCall with method := 16, in_phone_hash := 77 }),
           (501, { zeroCall with method := 17, in_phone_hash := 77 })]).1.map
            Connection.msg_queue =
        [[(500, { zeroCall with method := 16, in_phone_hash := 77 }),
          (501, { zeroCall with method := 17, in_phone_hash := 77 })]]
      ∧ drainCalls 0 0
          ((routeAll
              [{ wdata := ⟨9, false, ⟨0, false, false⟩⟩, in_phone_hash := 77,
                 msg_queue := [], callid := 100, call := zeroCall, close_callid := 0 }]
              [(500, { zeroCall with method := 16, in_phone_hash := 77 }),
               (501, { zeroCall with method := 17, in_phone_hash := 77 })]).1.headD
            { wdata := ⟨9, false, ⟨0, false, false⟩⟩, in_phone_hash := 77,
              msg_queue := [], callid := 100, call := zeroCall, close_callid := 0 }) 2 =
        [(500, { zeroCall with method := 16, in_phone_hash := 77 }),
         (501, { zeroCall with method := 17, in_phone_hash := 77 })]) :=
  ⟨⟨by decide, by decide⟩,
   c1_fifo_per_connection
     { wdata := ⟨9, false, ⟨0, false, false⟩⟩, in_phone_hash := 77,
       msg_queue := [], callid := 100, call := zeroCall, close_callid := 0 }
     [(500, { zeroCall with method := 16, in_phone_hash := 77 }),
      (501, { zeroCall with method := 17, in_phone_hash := 77 })]
     0 0 (by decide) (by decide)⟩

/-! Hangup drain, unrouted calls, and idempotent hangup reads. -/

theorem drain_hangup_eq_map (q : List (Nat × IpcCall)) :
    drain_hangup q = q.map (fun m => (m.1, EHANGUP)) := by
  induction q with
  | nil => rfl
  | cons m rest ih => simp [drain_hangup, ih]

theorem find_after_remove (tbl : List Connection) (key : Nat) :
    hash_table_find (hash_table_remove tbl key) key = none := by
  rw [hash_table_find, List.find?_eq_none]
  intro c hc
  have h := (List.mem_filter.1 hc).2
  simp only [bne_iff_ne, ne_eq] at h
  simp [h]

/-- C5: hangup drain.  When the connection's server function returns
with the messages of msg_queue still queued, connection_fibril removes
the connection from the connection table (it can no longer be found
under its in-phone hash), answers exactly those messages with EHANGUP,
one answer per cid in queue (FIFO) order, and finally answers
close_callid with EOK exactly when it is set. -/
theorem c5_hangup_drain (tbl : List Connection) (conn : Connection) :
    (connection_fibril_exit tbl conn).2 =
        conn.msg_queue.map (fun m => (m.1, EHANGUP)) ++
          (if conn.close_callid ≠ 0 then [(conn.close_callid, EOK)] else [])
    ∧ (connection_fibril_exit tbl conn).1 = hash_table_remove tbl conn.in_phone_hash
    ∧ hash_table_find (connection_fibril_exit tbl conn).1 conn.in_phone_hash = none := by
  refine ⟨?_, rfl, find_after_remove tbl conn.in_phone_hash⟩
  rw [connection_fibril_exit, drain_hangup_eq_map]

/-- C6: unrouted answer.  A received call without the NOTIFICATION bit
whose method is neither IPC_M_CONNECT_ME nor IPC_M_CONNECT_ME_TO, and
which route_call cannot route (its in-phone hash matches no connection
table entry, or the message-node allocation fails), is answered by
handle_call with exactly one EHANGUP, the connection table is left
unchanged, and route_call indeed reported it unrouted; an allocation
failure is treated exactly like a missing table entry. -/
theorem c6_unrouted_hangup (tbl : List Connection) (callid : Nat) (call : IpcCall)
    (allocOk connAllocOk fibrilOk : Bool) (newFid : Nat) (garbageEv : TimeoutEvent)
    (hnotif : callid &&& IPC_CALLID_NOTIFICATION = 0)
    (hm1 : call.method ≠ IPC_M_CONNECT_ME)
    (hm2 : call.method ≠ IPC_M_CONNECT_ME_TO)
    (hunrouted : hash_table_find tbl call.in_phone_hash = none ∨ allocOk = false) :
    (handle_call tbl callid call allocOk connAllocOk fibrilOk newFid garbageEv).2 =
        [(callid, EHANGUP)]
    ∧ (handle_call tbl callid call allocOk connAllocOk fibrilOk newFid garbageEv).1 = tbl
    ∧ (route_call tbl callid call allocOk).routed = false := by
  have hroute : route_call tbl callid call allocOk = ⟨false, tbl, []⟩ := by
    rcases hunrouted with h | h
    · simp [route_call, h]
    · cases hfind : hash_table_find tbl call.in_phone_hash <;>
        simp [route_call, hfind, h]
  refine ⟨?_, ?_, by rw [hroute]⟩ <;>
    simp [handle_call, hnotif, hm1, hm2, hroute]

/-- C6 witness: a call with method 16 and in-phone hash 5 arriving
with call id 4 (no NOTIFICATION bit) on an empty connection table gets
exactly one EHANGUP answer. -/
theorem c6_unrouted_hangup_witness :
    ((4 &&& IPC_CALLID_NOTIFICATION = 0)
      ∧ ({ zeroCall with method := 16, in_phone_hash := 5 } : IpcCall).method ≠ IPC_M_CONNECT_ME
      ∧ ({ zeroCall with method := 16, in_phone_hash := 5 } : IpcCall).method ≠ IPC_M_CONNECT_ME_TO
      ∧ (hash_table_find [] ({ zeroCall with method := 16, in_phone_hash := 5 } : IpcCall).in_phone_hash = none
          ∨ true = false))
    ∧ ((handle_call [] 4 { zeroCall with method := 16, in_phone_hash := 5 } true true true 8
          ⟨0, false, false⟩).2 = [(4, EHANGUP)]
      ∧ (handle_call [] 4 { zeroCall with method := 16, in_phone_hash := 5 } true true true 8
          ⟨0, false, false⟩).1 = []
      ∧ (route_call [] 4 { zeroCall with method := 16, in_phone_hash := 5 } true).routed = false) :=
  ⟨⟨by decide, by decide, by decide, by decide⟩,
   c6_unrouted_hangup [] 4 { zeroCall with method := 16, in_phone_hash := 5 }
     true true true 8 ⟨0, false, false⟩ (by decide) (by decide) (by decide) (by decide)⟩

theorem step_hangup (conn : Connection) (usecs now : Nat)
    (h0 : conn.msg_queue = []) (h1 : conn.close_callid ≠ 0) :
    async_get_call_step conn usecs now =
      (GetCallResult.got conn.close_callid hungupCall, conn_tick conn usecs now) := by
  have h' : (conn_tick conn usecs now).msg_queue = [] := by
    rw [conn_tick_msg_queue, h0]
  simp only [async_get_call_step]
  rw [h', conn_tick_close_callid, if_pos h1]

/-- C7: idempotent hangup read.  On a connection with an empty inbox
and a non-zero close_callid, async_get_call_timeout returns
close_callid together with the zeroed call record whose method is
IPC_M_PHONE_HUNGUP; the pass leaves the inbox empty and close_callid
unchanged, so a subsequent pass under the same conditions (with any
timeout argument and any current time) returns the same close_callid
with the same synthesized record. -/
theorem c7_idempotent_hangup_read (conn : Connection) (usecs now usecs2 now2 : Nat)
    (h0 : conn.msg_queue = []) (h1 : conn.close_callid ≠ 0) :
    (async_get_call_step conn usecs now).1 =
        GetCallResult.got conn.close_callid hungupCall
    ∧ hungupCall = { method := IPC_M_PHONE_HUNGUP, arg1 := 0, arg2 := 0,
                     arg3 := 0, arg4 := 0, arg5 := 0, in_phone_hash := 0 }
    ∧ (async_get_call_step conn usecs now).2.msg_queue = []
    ∧ (async_get_call_step conn usecs now).2.close_callid = conn.close_callid
    ∧ (async_get_call_step (async_get_call_step conn usecs now).2 usecs2 now2).1 =
        GetCallResult.got conn.close_callid hungupCall := by
  have hstep := step_hangup conn usecs now h0 h1
  have hq : (conn_tick conn usecs now).msg_queue = [] := by
    rw [conn_tick_msg_queue, h0]
  have hc : (conn_tick conn usecs now).close_callid = conn.close_callid :=
    conn_tick_close_callid conn usecs now
  have hstep2 := step_hangup (conn_tick conn usecs now) usecs2 now2 hq
    (by rw [hc]; exact h1)
  refine ⟨by rw [hstep], rfl, by rw [hstep]; exact hq, by rw [hstep]; exact hc, ?_⟩
  rw [hstep]
  simp only [hstep2, hc]

/-- C7 witness: a connection with empty inbox and close_callid 33
returns (33, hungup record) from two successive get-call passes with
different timeout arguments. -/
theorem c7_idempotent_hangup_read_witness :
    (Connection.msg_queue
        { wdata := ⟨9, false, ⟨0, false, false⟩⟩, in_phone_hash := 77,
          msg_queue := [], callid := 100, call := zeroCall, close_callid := 33 } = []
      ∧ Connection.close_callid
          { wdata := ⟨9, false, ⟨0, false, false⟩⟩, in_phone_hash := 77,
            msg_queue := [], callid := 100, call := zeroCall, close_callid := 33 } ≠ 0)
    ∧ ((async_get_call_step
          { wdata := ⟨9, false, ⟨0, false, false⟩⟩, in_phone_hash := 77,
            msg_queue := [], callid := 100, call := zeroCall, close_callid := 33 }
          10 3).1 = GetCallResult.got 33 hungupCall
      ∧ hungupCall = { method := IPC_M_PHONE_HUNGUP, arg1 := 0, arg2 := 0,
                       arg3 := 0, arg4 := 0, arg5 := 0, in_phone_hash := 0 }
      ∧ (async_get_call_step
          { wdata := ⟨9, false, ⟨0, false, false⟩⟩, in_phone_hash := 77,
            msg_queue := [], callid := 100, call := zeroCall, close_callid := 33 }
          10 3).2.msg_queue = []
      ∧ (async_get_call_step
          { wdata := ⟨9, false, ⟨0, false, false⟩⟩, in_phone_hash := 77,
            msg_queue := [], callid := 100, call := zeroCall, close_callid := 33 }
          10 3).2.close_callid = 33
      ∧ (async_get_call_step
          (async_get_call_step
            { wdata := ⟨9, false, ⟨0, false, false⟩⟩, in_phone_hash := 77,
              msg_queue := [], callid := 100, call := zeroCall, close_callid := 33 }
            10 3).2 0 9).1 = GetCallResult.got 33 hungupCall) :=
  ⟨⟨by decide, by decide⟩,
   c7_idempotent_hangup_read
     { wdata := ⟨9, false, ⟨0, false, false⟩⟩, in_phone_hash := 77,
       msg_queue := [], callid := 100, call := zeroCall, close_callid := 33 }
     10 3 0 9 (by decide) (by decide)⟩

/-! Lemmas about the outbound-message lifecycle. -/

theorem applyEvents_nil (m : Amsg) : applyEvents m [] = m := rfl

theorem applyEvents_cons (m : Amsg) (e : AmsgEvent) (t : List AmsgEvent) :
    applyEvents m (e :: t) = applyEvents (amsgStep m e) t := rfl

theorem amsgStep_done (m : Amsg) (e : AmsgEvent) :
    (amsgStep m e).done = (m.done || e.isReply) := by
  cases e <;> simp [amsgStep, AmsgEvent.isReply, reply_received] <;> split_ifs <;> rfl

theorem applyEvents_done (t : List AmsgEvent) : ∀ m : Amsg,
    (applyEvents m t).done = (m.done || t.any AmsgEvent.isReply) := by
  induction t with
  | nil => intro m; simp [applyEvents]
  | cons e rest ih =>
      intro m
      rw [applyEvents_cons, ih, amsgStep_done, List.any_cons, Bool.or_assoc]

theorem any_isReply_false (t : List AmsgEvent)
    (h : t.all (fun x => !x.isReply) = true) :
    t.any AmsgEvent.isReply = false := by
  rw [List.any_eq_false]
  intro x hx
  have hx' := List.all_eq_true.1 h x hx
  simp only [Bool.not_eq_true'] at hx'
  simp [hx']

theorem amsgStep_retval_nonreply (m : Amsg) (e : AmsgEvent)
    (h : e.isReply = false) : (amsgStep m e).retval = m.retval := by
  cases e <;> simp_all [amsgStep, AmsgEvent.isReply]

theorem applyEvents_retval_nonreply (t : List AmsgEvent) : ∀ m : Amsg,
    t.all (fun x => !x.isReply) = true →
      (applyEvents m t).retval = m.retval := by
  induction t with
  | nil => intro m _; rfl
  | cons e rest ih =>
      intro m h
      rw [List.all_cons, Bool.and_eq_true] at h
      rw [applyEvents_cons, ih _ h.2,
          amsgStep_retval_nonreply m e (by simpa using h.1)]

theorem reply_received_retval (m : Amsg) (rv : Int) (d : Option IpcCall) :
    (reply_received m rv d).1.retval = rv := by
  simp only [reply_received]
  split_ifs <;> rfl

theorem reply_step_retval (m : Amsg) (rv : Int) (d : Option IpcCall) :
    (amsgStep m (AmsgEvent.reply rv d)).retval = rv :=
  reply_received_retval m rv d

/-- C2: AMSG done-once lifecycle.  An amsg created by async_send_fast
or async_send_slow starts with done = false; done stays false across
any events that are not the reply callback; a step sets done exactly
when it is the reply callback; once reply_received ran, done is true
and stays true, and the amsg's retval is the status the callback
stored; async_wait_for then stores that status through a non-null
retval pointer and frees the amsg, whether it found done already set
or parked and resumed after the callback. -/
theorem c2_amsg_done_once (g : Amsg) (dp p : Bool) (t1 t2 : List AmsgEvent)
    (rv : Int) (d : Option IpcCall) (e : AmsgEvent)
    (h1 : t1.all (fun x => !x.isReply) = true)
    (h2 : t2.all (fun x => !x.isReply) = true) :
    (async_send_fast_msg dp g).done = false
    ∧ (async_send_slow_msg dp g).done = false
    ∧ (applyEvents (async_send_fast_msg dp g) t1).done = false
    ∧ (amsgStep (applyEvents (async_send_fast_msg dp g) t1) e).done = e.isReply
    ∧ (applyEvents (amsgStep (applyEvents (async_send_fast_msg dp g) t1)
        (AmsgEvent.reply rv d)) t2).done = true
    ∧ (applyEvents (amsgStep (applyEvents (async_send_fast_msg dp g) t1)
        (AmsgEvent.reply rv d)) t2).retval = rv
    ∧ (async_wait_for
        (applyEvents (amsgStep (applyEvents (async_send_fast_msg dp g) t1)
          (AmsgEvent.reply rv d)) t2)
        (applyEvents (amsgStep (applyEvents (async_send_fast_msg dp g) t1)
          (AmsgEvent.reply rv d)) t2) p).stored =
        (if p then some rv else none)
    ∧ (async_wait_for (applyEvents (async_send_fast_msg dp g) t1)
        (applyEvents (amsgStep (applyEvents (async_send_fast_msg dp g) t1)
          (AmsgEvent.reply rv d)) t2) p).stored =
        (if p then some rv else none)
    ∧ (async_wait_for (applyEvents (async_send_fast_msg dp g) t1)
        (applyEvents (amsgStep (applyEvents (async_send_fast_msg dp g) t1)
          (AmsgEvent.reply rv d)) t2) p).freed = true := by
  have hsend : (async_send_fast_msg dp g).done = false := rfl
  have hm1 : (applyEvents (async_send_fast_msg dp g) t1).done = false := by
    rw [applyEvents_done, hsend, any_isReply_false t1 h1]
    rfl
  have hreply : (amsgStep (applyEvents (async_send_fast_msg dp g) t1)
      (AmsgEvent.reply rv d)).done = true := by
    rw [amsgStep_done, hm1]
    rfl
  have hfinal : (applyEvents (amsgStep (applyEvents (async_send_fast_msg dp g) t1)
      (AmsgEvent.reply rv d)) t2).done = true := by
    rw [applyEvents_done, hreply, Bool.true_or]
  have hret : (applyEvents (amsgStep (applyEvents (async_send_fast_msg dp g) t1)
      (AmsgEvent.reply rv d)) t2).retval = rv := by
    rw [applyEvents_retval_nonreply t2 _ h2, reply_step_retval]
  refine ⟨hsend, rfl, hm1, ?_, hfinal, hret, ?_, ?_, ?_⟩
  · rw [amsgStep_done, hm1, Bool.false_or]
  · simp [async_wait_for, hfinal, hret]
  · simp [async_wait_for, hm1, hret]
  · simp [async_wait_for, hm1]

/-- C2 witness: the lifecycle theorem applied to a concrete garbage
amsg, a reply with status 5 and empty surrounding event lists, with a
timer-fired event as the non-reply step. -/
theorem c2_amsg_done_once_witness :
    (([] : List AmsgEvent).all (fun x => !x.isReply) = true
      ∧ ([AmsgEvent.timerFired] : List AmsgEvent).all (fun x => !x.isReply) = true)
    ∧ ((async_send_fast_msg false ⟨⟨0, false, ⟨0, false, false⟩⟩, true, true, none, 7⟩).done = false
      ∧ (async_send_slow_msg false ⟨⟨0, false, ⟨0, false, false⟩⟩, true, true, none, 7⟩).done = false
      ∧ (applyEvents (async_send_fast_msg false ⟨⟨0, false, ⟨0, false, false⟩⟩, true, true, none, 7⟩) []).done = false
      ∧ (amsgStep (applyEvents (async_send_fast_msg false ⟨⟨0, false, ⟨0, false, false⟩⟩, true, true, none, 7⟩) [])
          AmsgEvent.timerFired).done = AmsgEvent.timerFired.isReply
      ∧ (applyEvents (amsgStep (applyEvents (async_send_fast_msg false ⟨⟨0, false, ⟨0, false, false⟩⟩, true, true, none, 7⟩) [])
          (AmsgEvent.reply 5 none)) [AmsgEvent.timerFired]).done = true
      ∧ (applyEvents (amsgStep (applyEvents (async_send_fast_msg false ⟨⟨0, false, ⟨0, false, false⟩⟩, true, true, none, 7⟩) [])
          (AmsgEvent.reply 5 none)) [AmsgEvent.timerFired]).retval = 5
      ∧ (async_wait_for
          (applyEvents (amsgStep (applyEvents (async_send_fast_msg false ⟨⟨0, false, ⟨0, false, false⟩⟩, true, true, none, 7⟩) [])
            (AmsgEvent.reply 5 none)) [AmsgEvent.timerFired])
          (applyEvents (amsgStep (applyEvents (async_send_fast_msg false ⟨⟨0, false, ⟨0, false, false⟩⟩, true, true, none, 7⟩) [])
            (AmsgEvent.reply 5 none)) [AmsgEvent.timerFired]) true).stored =
          (if true then some 5 else none)
      ∧ (async_wait_for (applyEvents (async_send_fast_msg false ⟨⟨0, false, ⟨0, false, false⟩⟩, true, true, none, 7⟩) [])
          (applyEvents (amsgStep (applyEvents (async_send_fast_msg false ⟨⟨0, false, ⟨0, false, false⟩⟩, true, true, none, 7⟩) [])
            (AmsgEvent.reply 5 none)) [AmsgEvent.timerFired]) true).stored =
          (if true then some 5 else none)
      ∧ (async_wait_for (applyEvents (async_send_fast_msg false ⟨⟨0, false, ⟨0, false, false⟩⟩, true, true, none, 7⟩) [])
          (applyEvents (amsgStep (applyEvents (async_send_fast_msg false ⟨⟨0, false, ⟨0, false, false⟩⟩, true, true, none, 7⟩) [])
            (AmsgEvent.reply 5 none)) [AmsgEvent.timerFired]) true).freed = true) :=
  ⟨⟨by decide, by decide⟩,
   c2_amsg_done_once ⟨⟨0, false, ⟨0, false, false⟩⟩, true, true, none, 7⟩ false true
     [] [AmsgEvent.timerFired] 5 none AmsgEvent.timerFired (by decide) (by decide)⟩

/-! Timeout waits and usleep. -/

/-- C4: no free on timeout.  With a non-negative timeout, whenever
async_wait_timeout returns ETIMEOUT (done was not set at entry and was
still not set when the fibril was woken, i.e. the wakeup came from the
timeout), its action trace contains no free of the amsg, so the amsg
stays alive for the later reply callback; and conversely the trace
frees the amsg only on the EOK path, on which the done flag was
observed true (either already at entry or after resuming). -/
theorem c4_no_free_on_timeout (mEntry mResume : Amsg) (p : Bool)
    (timeout : Int) (now : Nat) (h : 0 ≤ timeout) :
    ((async_wait_timeout mEntry p timeout now mResume).1 = ETIMEOUT →
      WaitAction.freeMsg ∉ (async_wait_timeout mEntry p timeout now mResume).2
      ∧ mEntry.done = false ∧ mResume.done = false)
    ∧ (WaitAction.freeMsg ∈ (async_wait_timeout mEntry p timeout now mResume).2 →
      (async_wait_timeout mEntry p timeout now mResume).1 = EOK
      ∧ (mEntry.done = true ∨ mResume.done = true)) := by
  have hnl : ¬ timeout < 0 := not_lt.2 h
  have hne : EOK ≠ ETIMEOUT := by decide
  simp only [async_wait_timeout, if_neg hnl]
  by_cases hd : mEntry.done
  · cases p <;> simp [hd, hne]
  · by_cases hr : mResume.done
    · cases p <;> simp [hd, hr, hne]
    · simp [hd, hr]

/-- C4 witness: an amsg that is not done at entry and still not done
after the wakeup, waited for with timeout 50, yields ETIMEOUT with no
free in the trace. -/
theorem c4_no_free_on_timeout_witness :
    ((0 : Int) ≤ 50)
    ∧ (((async_wait_timeout ⟨⟨1, false, ⟨0, false, false⟩⟩, false, false, none, 7⟩ true 50 3
          ⟨⟨1, false, ⟨9, true, true⟩⟩, false, false, none, 7⟩).1 = ETIMEOUT →
        WaitAction.freeMsg ∉ (async_wait_timeout ⟨⟨1, false, ⟨0, false, false⟩⟩, false, false, none, 7⟩ true 50 3
          ⟨⟨1, false, ⟨9, true, true⟩⟩, false, false, none, 7⟩).2
        ∧ Amsg.done ⟨⟨1, false, ⟨0, false, false⟩⟩, false, false, none, 7⟩ = false
        ∧ Amsg.done ⟨⟨1, false, ⟨9, true, true⟩⟩, false, false, none, 7⟩ = false)
      ∧ (WaitAction.freeMsg ∈ (async_wait_timeout ⟨⟨1, false, ⟨0, false, false⟩⟩, false, false, none, 7⟩ true 50 3
          ⟨⟨1, false, ⟨9, true, true⟩⟩, false, false, none, 7⟩).2 →
        (async_wait_timeout ⟨⟨1, false, ⟨0, false, false⟩⟩, false, false, none, 7⟩ true 50 3
          ⟨⟨1, false, ⟨9, true, true⟩⟩, false, false, none, 7⟩).1 = EOK
        ∧ (Amsg.done ⟨⟨1, false, ⟨0, false, false⟩⟩, false, false, none, 7⟩ = true
          ∨ Amsg.done ⟨⟨1, false, ⟨9, true, true⟩⟩, false, false, none, 7⟩ = true))) :=
  ⟨by decide,
   c4_no_free_on_timeout ⟨⟨1, false, ⟨0, false, false⟩⟩, false, false, none, 7⟩
     ⟨⟨1, false, ⟨9, true, true⟩⟩, false, false, none, 7⟩ true 50 3 (by decide)⟩

/-- C9: negative timeout short-circuit.  For every negative timeout
argument, async_wait_timeout returns ETIMEOUT with an empty action
trace: the futex is never taken, the done flag never read, nothing is
stored through the retval pointer and the amsg is not freed — even
when the reply has already arrived and done is true at entry. -/
theorem c9_negative_timeout (mEntry mResume : Amsg) (p : Bool)
    (timeout : Int) (now : Nat) (h : timeout < 0) :
    async_wait_timeout mEntry p timeout now mResume = (ETIMEOUT, []) := by
  simp only [async_wait_timeout, if_pos h]

/-- C9 witness: a negative timeout of -1 on an amsg whose done flag is
already true still returns ETIMEOUT with the empty trace. -/
theorem c9_negative_timeout_witness :
    ((-1 : Int) < 0)
    ∧ async_wait_timeout ⟨⟨1, false, ⟨0, false, false⟩⟩, true, false, none, 7⟩ true (-1) 0
        ⟨⟨1, false, ⟨0, false, false⟩⟩, true, false, none, 7⟩ = (ETIMEOUT, []) :=
  ⟨by decide,
   c9_negative_timeout ⟨⟨1, false, ⟨0, false, false⟩⟩, true, false, none, 7⟩
     ⟨⟨1, false, ⟨0, false, false⟩⟩, true, false, none, 7⟩ true (-1) 0 (by decide)⟩

/-- C10: usleep allocation failure.  When the allocation of the amsg
fails, async_usleep returns immediately: the fibril does not suspend,
nothing is inserted into the timeout list, which stays unchanged, and
— the C function returning void — no error is reported to the
caller. -/
theorem c10_usleep_alloc_failure (garbage : Awaiter) (fid now timeout : Nat)
    (tl : List Awaiter) :
    async_usleep false garbage fid now timeout tl = ⟨tl, false, false⟩ := by
  simp [async_usleep]

/-! The bulk data-write acceptance helper. -/

/-- C8: async_data_write_accept bound enforcement.  With the handshake
received, a size below min_size, a size above a non-zero max_size, or
a size not divisible by a non-zero granularity is answered EINVAL and
returned EINVAL with no buffer produced; when the size passes all
three bounds, the allocation succeeds and the finalize step returns
EOK, the helper allocates size bytes (size + 1 when nullterm, and the
byte at index size of the resulting buffer is zero), hands back the
payload (null-terminated when nullterm), stores size through received
and returns EOK. -/
theorem c8_data_write_accept (callid size min_size max_size granularity : Nat)
    (nullterm : Bool) (payload : List Nat) (frc : Int)
    (hlen : payload.length = size) :
    (size < min_size →
      async_data_write_accept callid true size nullterm min_size max_size
          granularity true payload frc =
        ⟨EINVAL, [(callid, EINVAL)], none, none, none⟩)
    ∧ (0 < max_size → max_size < size →
      async_data_write_accept callid true size nullterm min_size max_size
          granularity true payload frc =
        ⟨EINVAL, [(callid, EINVAL)], none, none, none⟩)
    ∧ (0 < granularity → size % granularity ≠ 0 →
      async_data_write_accept callid true size nullterm min_size max_size
          granularity true payload frc =
        ⟨EINVAL, [(callid, EINVAL)], none, none, none⟩)
    ∧ (min_size ≤ size → (max_size = 0 ∨ size ≤ max_size) →
       (granularity = 0 ∨ size % granularity = 0) → frc = EOK →
      async_data_write_accept callid true size nullterm min_size max_size
          granularity true payload frc =
        ⟨EOK, [], some (size + (if nullterm then 1 else 0)),
         some (if nullterm then payload ++ [0] else payload), some size⟩
      ∧ (nullterm = true →
          (if nullterm then payload ++ [0] else payload).getD size 1 = 0)) := by
  refine ⟨?_, ?_, ?_, ?_⟩
  · intro hb
    simp [async_data_write_accept, hb]
  · intro hb1 hb2
    by_cases hmin : size < min_size <;>
      simp [async_data_write_accept, hmin, hb1, hb2]
  · intro hb1 hb2
    by_cases hmin : size < min_size
    · simp [async_data_write_accept, hmin]
    · by_cases hmax : 0 < max_size ∧ max_size < size <;>
        simp [async_data_write_accept, hmin, hmax, hb1, hb2]
  · intro hv1 hv2 hv3 hfrc
    have hmin : ¬ size < min_size := not_lt.2 hv1
    have hmax : ¬ (0 < max_size ∧ max_size < size) := by
      rintro ⟨hm1, hm2⟩
      rcases hv2 with h | h
      · exact absurd hm1 (by simp [h])
      · exact absurd hm2 (not_lt.2 h)
    have hgran : ¬ (0 < granularity ∧ size % granularity ≠ 0) := by
      rintro ⟨hg1, hg2⟩
      rcases hv3 with h | h
      · exact absurd hg1 (by simp [h])
      · exact hg2 h
    constructor
    · simp only [async_data_write_accept, hmin, hmax, hgran, hfrc,
        Bool.not_true, if_neg, if_false, ite_false]
      cases nullterm <;> simp
    · intro hn
      subst hn
      simp only [if_true]
      rw [← hlen, List.getD_eq_getElem?_getD, List.getElem?_concat_length]
      rfl

/-- C8 witness: size 4 with bounds min 1, max 8, granularity 2 and
null-termination accepts the four payload bytes, allocates five bytes
and null-terminates; the instantiated EINVAL branches hold
vacuously. -/
theorem c8_data_write_accept_witness :
    ([10, 11, 12, 13].length = 4)
    ∧ ((4 < 1 →
        async_data_write_accept 9 true 4 true 1 8 2 true [10, 11, 12, 13] EOK =
          ⟨EINVAL, [(9, EINVAL)], none, none, none⟩)
      ∧ (0 < 8 → 8 < 4 →
        async_data_write_accept 9 true 4 true 1 8 2 true [10, 11, 12, 13] EOK =
          ⟨EINVAL, [(9, EINVAL)], none, none, none⟩)
      ∧ (0 < 2 → 4 % 2 ≠ 0 →
        async_data_write_accept 9 true 4 true 1 8 2 true [10, 11, 12, 13] EOK =
          ⟨EINVAL, [(9, EINVAL)], none, none, none⟩)
      ∧ (1 ≤ 4 → (8 = 0 ∨ 4 ≤ 8) → (2 = 0 ∨ 4 % 2 = 0) → EOK = EOK →
        async_data_write_accept 9 true 4 true 1 8 2 true [10, 11, 12, 13] EOK =
          ⟨EOK, [], some (4 + (if true then 1 else 0)),
           some (if true then [10, 11, 12, 13] ++ [0] else [10, 11, 12, 13]), some 4⟩
        ∧ (true = true →
            (if true then [10, 11, 12, 13] ++ [0] else [10, 11, 12, 13]).getD 4 1 = 0))) :=
  ⟨by decide, c8_data_write_accept 9 4 1 8 2 true [10, 11, 12, 13] EOK (by decide)⟩

end Async

